import Mathlib

/-!
# Asana API client: error classification, paging and the mock transport

A shallow embedding of `errors.go` (the error classifier and its predicates), of the
paging loops of `users.go` and `customfields.go`, and of the mock transport of
`asana_mock.go`, with the properties of the design document stated over it.

Conventions of the embedding:
* Go `int` and `time.Duration` values are `Int`; arithmetic that can overflow an `int64`
  is wrapped explicitly with `wrapInt64`.
* A Go slice is `Option (List _)` where the difference between a nil slice and an empty
  one is observable (`Response.Errors`), and a `List` elsewhere.
* A Go pointer that may be nil is an `Option`.
* A run-time panic is a `Fault` carried in `Except`.
-/

namespace Asana

/-! ## Machine integers and durations -/

/-- Reduction of an integer to the two's complement `int64` range. -/
def wrapInt64 (x : Int) : Int := (x + 2 ^ 63) % 2 ^ 64 - 2 ^ 63

/-- Largest `uint64`. -/
def maxUint64 : Nat := 2 ^ 64 - 1

/-- The `time.Second` constant, in nanoseconds. -/
def Second : Int := 1000000000

/-- The `time.Minute` constant, in nanoseconds. -/
def Minute : Int := 60 * Second

/-! ## `strconv.ParseInt(s, 10, 64)` of the Go standard library -/

/-- The two failures of `strconv`: `ErrSyntax` and `ErrRange`. -/
inductive NumError where
  | ErrSyntax
  | ErrRange
  deriving DecidableEq, Repr

/-- The digit loop of `strconv.ParseUint` for base 10 and bit size 64: `n` is the value
read so far. A byte that is not a decimal digit is a syntax error with value 0; a value
that leaves the `uint64` range is a range error with value `maxUint64`, returned at once. -/
def parseUintLoop : List Char → Nat → Nat × Option NumError
  | [], n => (n, none)
  | c :: cs, n =>
    if '0' ≤ c ∧ c ≤ '9' then
      let d := c.toNat - '0'.toNat
      if n ≥ maxUint64 / 10 + 1 then (maxUint64, some NumError.ErrRange)
      else
        let m := n * 10
        let n1 := (m + d) % 2 ^ 64
        if n1 < m ∨ n1 > maxUint64 then (maxUint64, some NumError.ErrRange)
        else parseUintLoop cs n1
    else (0, some NumError.ErrSyntax)

/-- The function `strconv.ParseUint(s, 10, 64)` on the bytes of `s`. -/
def ParseUint (s : List Char) : Nat × Option NumError :=
  match s with
  | [] => (0, some NumError.ErrSyntax)
  | _ => parseUintLoop s 0

/-- The function `strconv.ParseInt(s, 10, 64)`: an optional sign, then `ParseUint`; on a
range error the result is the `int64` of largest magnitude with the sign of the input. -/
def ParseInt (s : String) : Int × Option NumError :=
  match s.toList with
  | [] => (0, some NumError.ErrSyntax)
  | c :: cs =>
    let neg : Bool := c == '-'
    let digits := if c == '+' then cs else if c == '-' then cs else c :: cs
    match ParseUint digits with
    | (_, some NumError.ErrSyntax) => (0, some NumError.ErrSyntax)
    | (un, _) =>
      if !neg && decide (un ≥ 2 ^ 63) then (2 ^ 63 - 1, some NumError.ErrRange)
      else if neg && decide (un > 2 ^ 63) then (-(2 ^ 63), some NumError.ErrRange)
      else (if neg then -(un : Int) else (un : Int), none)

/-! ## HTTP responses -/

/-- The `http.Header` map: canonical key to the values of that key. -/
abbrev Header := List (String × List String)

/-- The method `http.Header.Get`: the first value of the key, or the empty string. -/
def Header.Get (h : Header) (key : String) : String :=
  match h.lookup key with
  | some (v :: _) => v
  | _ => ""

/-- The fields of `http.Response` read by the classifier. -/
structure HttpResponse where
  StatusCode : Int
  Status : String
  Header : Header
  deriving Repr

/-- The request identifier `xid.ID`, carried by its string form. -/
structure XID where
  text : String
  deriving Repr, DecidableEq

/-- The method `xid.ID.String`. -/
def XID.String (id : XID) : String := id.text

/-! ## `errors.go` -/

/-- The struct `Error`: an error message returned by the API. The field `Type` of the
source is `Typ` here. -/
structure Error where
  StatusCode : Int
  Typ : String
  Message : String
  Phrase : String
  Help : String
  RetryAfter : Int
  RequestID : String
  deriving Repr, DecidableEq

/-- The decoded body of a response, as far as the classifier reads it: the `Errors`
slice of `*Error`, which is nil when the body has no `errors` field. -/
structure Response where
  Errors : Option (List (Option Error))
  deriving Repr

/-- Run-time panics of the embedded code. -/
inductive Fault where
  | indexOutOfRange
  | nilDereference
  deriving DecidableEq, Repr

/-- The method `(*Error).withType`. -/
def Error.withType (err : Error) (statusCode : Int) (errorType : String) : Error :=
  { err with StatusCode := statusCode, Typ := errorType }

/-- Lines 14 to 24 of `Response.Error`: the error before the header is read. -/
def Response.baseError (r : Response) (resp : HttpResponse) (requestID : XID) :
    Except Fault Error :=
  match r.Errors with
  | some [] => Except.error Fault.indexOutOfRange
  | some (none :: _) => Except.error Fault.nilDereference
  | some (some e :: _) => Except.ok (e.withType resp.StatusCode resp.Status)
  | none =>
    Except.ok
      { StatusCode := resp.StatusCode
        Typ := resp.Status
        Message := "Unknown error"
        Phrase := ""
        Help := ""
        RetryAfter := 0
        RequestID := requestID.String }

/-- Lines 26 to 32 of `Response.Error`: the `Retry-After` header is read and, when it is
not empty, parsed; the duration is stored in the branch `err != nil`. -/
def applyRetryHeader (asanaError : Error) (resp : HttpResponse) : Error :=
  let retryHeader := resp.Header.Get "Retry-After"
  if retryHeader ≠ "" then
    match ParseInt retryHeader with
    | (retryAfter, some _) =>
      { asanaError with RetryAfter := wrapInt64 (retryAfter * Second) }
    | (_, none) => asanaError
  else asanaError

/-- The method `(*Response).Error`. -/
def Response.Error (r : Response) (resp : HttpResponse) (requestID : XID) :
    Except Fault Error :=
  match r.baseError resp requestID with
  | Except.ok asanaError => Except.ok (applyRetryHeader asanaError resp)
  | Except.error f => Except.error f

/-- A value of the Go interface `error`: nil, a non-nil `*Error`, an error of another
type that wraps nothing, or an error of another type whose `Unwrap` gives `cause`. -/
inductive ErrorValue where
  | nil
  | api (e : Error)
  | plain (text : String)
  | wrap (text : String) (cause : ErrorValue)
  deriving Repr, DecidableEq

/-- The function `IsAsanaError`: `errors.As` with a `*Error` target walks the chain of
causes and stops at the first `*Error`. -/
def IsAsanaError : ErrorValue → Option Error
  | ErrorValue.nil => none
  | ErrorValue.api e => some e
  | ErrorValue.plain _ => none
  | ErrorValue.wrap _ cause => IsAsanaError cause

/-- The function `IsRecoverableError`; the division is Go's, truncating toward zero. -/
def IsRecoverableError (err : ErrorValue) : Bool :=
  match IsAsanaError err with
  | some e => decide (Int.tdiv e.StatusCode 100 = 5)
  | none => false

/-- The function `IsFatalError`. -/
def IsFatalError (err : ErrorValue) : Bool :=
  match IsAsanaError err with
  | some e => decide (Int.tdiv e.StatusCode 100 ≠ 5)
  | none => false

/-- The function `IsNotFoundError`. -/
def IsNotFoundError (err : ErrorValue) : Bool :=
  match IsAsanaError err with
  | some e => decide (e.StatusCode = 404)
  | none => false

/-- The function `IsAuthError`. -/
def IsAuthError (err : ErrorValue) : Bool :=
  match IsAsanaError err with
  | some e => decide (e.StatusCode = 401)
  | none => false

/-- The function `IsRateLimited`. -/
def IsRateLimited (err : ErrorValue) : Bool :=
  match IsAsanaError err with
  | some e => decide (e.StatusCode = 429)
  | none => false

/-- The function `IsPayloadTooLarge`. -/
def IsPayloadTooLarge (err : ErrorValue) : Bool :=
  match IsAsanaError err with
  | some e => decide (e.StatusCode = 413)
  | none => false

/-- The function `RetryAfter`. -/
def RetryAfter (err : ErrorValue) : Int :=
  match IsAsanaError err with
  | some e => if e.StatusCode = 429 then e.RetryAfter else Minute
  | none => Minute

/-! ## The mock transport: `asana_mock.go` -/

/-- A body stream (`io.ReadCloser`): the bytes still to be read, and the error that reading
meets after them, nil when the stream ends cleanly. -/
structure Reader where
  pending : List UInt8
  failure : ErrorValue
  deriving Repr, DecidableEq

/-- The function `io.ReadAll`: all pending bytes and the error met, nil at a clean end;
the stream is left drained. -/
def ReadAll (r : Reader) : (List UInt8 × ErrorValue) × Reader :=
  ((r.pending, r.failure), { pending := [], failure := r.failure })

/-- The stream `io.NopCloser(bytes.NewBuffer(body))`. -/
def NopCloserBuffer (body : List UInt8) : Reader :=
  { pending := body, failure := ErrorValue.nil }

/-- The fields of `http.Request` that the mock transport reads; `Path` is `URL.Path`. A
`*http.Request` of the request log is represented by the request it points to. -/
structure Request where
  Method : String
  Path : String
  RawQuery : String
  Header : Header
  Body : Option Reader
  deriving Repr

/-- The two results of `DoFunc` and of `Do`. -/
structure DoResult where
  resp : Option HttpResponse
  err : ErrorValue
  deriving Repr

/-- The struct `MockClient`. The closure `DoFunc` may be nil, and may keep variables of its
own from call to call: they are the `captured` state, apart from the request log. -/
structure MockClient (σ : Type) where
  DoFunc : Option (σ → Request → DoResult × σ)
  captured : σ
  Requests : List Request

/-- The method `MockClient.Do`: the request is appended to the log, then `DoFunc` is called;
calling a nil `DoFunc` panics, with the request already in the log. -/
def MockClient.Do {σ : Type} (m : MockClient σ) (req : Request) :
    Except Fault DoResult × MockClient σ :=
  let m1 : MockClient σ := { m with Requests := m.Requests ++ [req] }
  match m1.DoFunc with
  | none => (Except.error Fault.nilDereference, m1)
  | some f =>
    match f m1.captured req with
    | (r, s1) => (Except.ok r, { m1 with captured := s1 })

/-- The struct `AssertRequest`. -/
structure AssertRequest where
  Request : Request
  deriving Repr

/-- The method `MockClient.GetLastRequest`. -/
def MockClient.GetLastRequest {σ : Type} (m : MockClient σ) : Option AssertRequest :=
  if h : m.Requests.length = 0 then none
  else some { Request := m.Requests.get ⟨m.Requests.length - 1, by omega⟩ }

/-- The method `AssertRequest.Body`, with the request it leaves behind. The decoder
`json.Unmarshal` into a nil `map[string]any` is the parameter `unmarshal`: from the bytes to
the map (nil when nothing was stored) and the error. -/
def AssertRequest.Body {J : Type} (unmarshal : List UInt8 → Option J × ErrorValue)
    (a : AssertRequest) : (Option J × ErrorValue) × AssertRequest :=
  match a.Request.Body with
  | none => ((none, ErrorValue.nil), a)
  | some rd =>
    match ReadAll rd with
    | ((body, err), rd1) =>
      if err ≠ ErrorValue.nil then
        ((none, err), { Request := { a.Request with Body := some rd1 } })
      else
        let a1 : AssertRequest :=
          { Request := { a.Request with Body := some (NopCloserBuffer body) } }
        match unmarshal body with
        | (result, err2) =>
          if err2 ≠ ErrorValue.nil then ((none, err2), a1) else ((result, ErrorValue.nil), a1)

/-- A run of calls of `Do`, one per request, results dropped. -/
def MockClient.doAll {σ : Type} (m : MockClient σ) : List Request → MockClient σ
  | [] => m
  | req :: rest => MockClient.doAll (m.Do req).2 rest

/-- What reading the whole body of a request gives: nothing for a nil body, else the bytes
and the error of `io.ReadAll`. -/
def bodyBytes (r : Request) : Option (List UInt8 × ErrorValue) :=
  match r.Body with
  | none => none
  | some rd => some (ReadAll rd).1

/-! ## Paging: `users.go` and `customfields.go` -/

/-- The struct `NextPage` of the response envelope; its declaration is outside the files
at hand, and `Offset` is the field the paging loops read. -/
structure NextPage where
  Offset : String
  Path : String
  URI : String
  deriving Repr, DecidableEq

/-- The struct `Options`, with the fields that the code at hand sets; its declaration is
outside the files at hand. -/
structure Options where
  Limit : Int
  Offset : String
  Workspace : String
  Owner : String
  deriving Repr, DecidableEq

/-- The struct `Workspace`, with the field read by the listing methods. -/
structure Workspace where
  ID : String
  deriving Repr, DecidableEq

/-- The struct `User`, without its `Photo` map and `Workspaces` list. -/
structure User where
  ID : String
  Name : String
  Email : String
  deriving Repr, DecidableEq

/-- The struct `CustomField`, with its identifier and name. -/
structure CustomField where
  ID : String
  Name : String
  deriving Repr, DecidableEq

/-- What one call of `Client.get` on a list endpoint yields: the decoded `result`, the
`*NextPage` of the envelope and the `error`. -/
structure Page (α : Type) where
  result : List α
  nextPage : Option NextPage
  err : ErrorValue
  deriving Repr

/-- The type of `Client.get`, whose body is outside the files at hand: from the state of
the client (and of the remote end), a path and the query options, to a page and the next
state. The request-body argument is nil at every call below and is left out. -/
abbrev Get (σ α : Type) := σ → String → List Options → Page α × σ

/-- The method `Workspace.Users`. -/
def Workspace.Users {σ : Type} (w : Workspace) (get : Get σ User) (client : σ)
    (options : List Options) : Page User × σ :=
  let queryOptions :=
    ({ Limit := 0, Offset := "", Workspace := w.ID, Owner := "" } : Options) :: options
  get client "/users" queryOptions

/-- The method `Workspace.CustomFields`. -/
def Workspace.CustomFields {σ : Type} (w : Workspace) (get : Get σ CustomField) (client : σ)
    (options : List Options) : Page CustomField × σ :=
  get client ("/workspaces/" ++ w.ID ++ "/custom_fields") options

/-- The `for nextPage != nil` loop of `Workspace.AllUsers`, with a bound on the number of
iterations: `none` when the bound is reached with a next page still pending. -/
def Workspace.allUsersLoop {σ : Type} (w : Workspace) (get : Get σ User)
    (options : List Options) :
    Nat → σ → Option NextPage → List User → Option ((List User × ErrorValue) × σ)
  | _, client, none, allUsers => some ((allUsers, ErrorValue.nil), client)
  | 0, _, some _, _ => none
  | fuel + 1, client, some nextPage, allUsers =>
    let page : Options := { Limit := 50, Offset := nextPage.Offset, Workspace := "", Owner := "" }
    let allOptions := page :: options
    match w.Users get client allOptions with
    | (r, client1) =>
      if r.err ≠ ErrorValue.nil then some (([], r.err), client1)
      else Workspace.allUsersLoop w get options fuel client1 r.nextPage (allUsers ++ r.result)

/-- The method `Workspace.AllUsers`: the loop started from `&NextPage{}` and no users. -/
def Workspace.AllUsers {σ : Type} (w : Workspace) (get : Get σ User) (client : σ)
    (options : List Options) (fuel : Nat) : Option ((List User × ErrorValue) × σ) :=
  Workspace.allUsersLoop w get options fuel client
    (some { Offset := "", Path := "", URI := "" }) []

/-- The `for nextPage != nil` loop of `Workspace.AllCustomFields`, with a bound on the number
of iterations. -/
def Workspace.allCustomFieldsLoop {σ : Type} (w : Workspace) (get : Get σ CustomField)
    (options : List Options) :
    Nat → σ → Option NextPage → List CustomField →
      Option ((List CustomField × ErrorValue) × σ)
  | _, client, none, allCustomFields => some ((allCustomFields, ErrorValue.nil), client)
  | 0, _, some _, _ => none
  | fuel + 1, client, some nextPage, allCustomFields =>
    let page : Options := { Limit := 50, Offset := nextPage.Offset, Workspace := "", Owner := "" }
    let allOptions := page :: options
    match w.CustomFields get client allOptions with
    | (r, client1) =>
      if r.err ≠ ErrorValue.nil then some (([], r.err), client1)
      else
        Workspace.allCustomFieldsLoop w get options fuel client1 r.nextPage
          (allCustomFields ++ r.result)

/-- The method `Workspace.AllCustomFields`. -/
def Workspace.AllCustomFields {σ : Type} (w : Workspace) (get : Get σ CustomField)
    (client : σ) (options : List Options) (fuel : Nat) :
    Option ((List CustomField × ErrorValue) × σ) :=
  Workspace.allCustomFieldsLoop w get options fuel client
    (some { Offset := "", Path := "", URI := "" }) []

/-! ### A remote end that answers from a script -/

/-- One call of `Client.get` as the remote end sees it. -/
structure Call where
  path : String
  options : List Options
  deriving Repr, DecidableEq

/-- A remote end that answers the calls of `Client.get` from a list of pages, in order,
and records every call. -/
structure Scripted (α : Type) where
  script : List (Page α)
  calls : List Call
  deriving Repr

/-- The scripted `Client.get`: the call is recorded and the next page of the script is
returned; with the script used up the call fails with a transport error. -/
def Scripted.get {α : Type} : Get (Scripted α) α := fun c path options =>
  match c.script with
  | [] =>
    ({ result := [], nextPage := none, err := ErrorValue.plain "no scripted response" },
      { script := [], calls := c.calls ++ [{ path := path, options := options }] })
  | p :: rest => (p, { script := rest, calls := c.calls ++ [{ path := path, options := options }] })

/-- The script of a walk: the pages that have a next cursor, then the page that has none,
then whatever the remote end would answer afterwards. -/
def walkScript {α : Type} (pages : List (List α × NextPage)) (last : List α)
    (rest : List (Page α)) : List (Page α) :=
  pages.map (fun p => { result := p.1, nextPage := some p.2, err := ErrorValue.nil }) ++
    { result := last, nextPage := none, err := ErrorValue.nil } :: rest

/-- The items of all pages of a walk, in page order. -/
def walkItems {α : Type} (pages : List (List α × NextPage)) (last : List α) : List α :=
  (pages.map (fun p => p.1)).flatten ++ last

/-- The common shape of the two paging loops, over the listing method `fetch`. -/
def walk {σ α : Type} (fetch : σ → List Options → Page α × σ) (options : List Options) :
    Nat → σ → Option NextPage → List α → Option ((List α × ErrorValue) × σ)
  | _, client, none, all => some ((all, ErrorValue.nil), client)
  | 0, _, some _, _ => none
  | fuel + 1, client, some nextPage, all =>
    match fetch client
      (({ Limit := 50, Offset := nextPage.Offset, Workspace := "", Owner := "" } : Options)
        :: options) with
    | (r, client1) =>
      if r.err ≠ ErrorValue.nil then some (([], r.err), client1)
      else walk fetch options fuel client1 r.nextPage (all ++ r.result)

/-- The calls that a walk makes: one per offset, on `path`, each with the paging options in
front of the caller's options and `front` in front of both. -/
def walkCalls (path : String) (front : List Options) (options : List Options)
    (offsets : List String) : List Call :=
  offsets.map (fun off =>
    { path := path
      options := front ++
        ({ Limit := 50, Offset := off, Workspace := "", Owner := "" } : Options) :: options })

/-- The offsets of a walk: that of the starting cursor, then those of the pages. -/
def walkOffsets {α : Type} (start : NextPage) (pages : List (List α × NextPage)) :
    List String :=
  start.Offset :: pages.map (fun p => p.2.Offset)

/-- A workspace for the scenarios. -/
def sampleWorkspace : Workspace := { ID := "1331" }

/-- Two pages of users that have a next cursor. -/
def sampleUserPages : List (List User × NextPage) :=
  [([{ ID := "1", Name := "Ann", Email := "ann@example.com" },
     { ID := "2", Name := "Bo", Email := "bo@example.com" }],
    { Offset := "tok1", Path := "/users?offset=tok1", URI := "" }),
   ([{ ID := "3", Name := "Cy", Email := "cy@example.com" }],
    { Offset := "tok2", Path := "/users?offset=tok2", URI := "" })]

/-- The last page of users. -/
def sampleLastUsers : List User := [{ ID := "4", Name := "Di", Email := "di@example.com" }]

/-- A single page of custom fields. -/
def sampleLastFields : List CustomField := [{ ID := "77", Name := "Priority" }]

/-- Options of the caller in the scenarios. -/
def sampleOptions : List Options := [{ Limit := 0, Offset := "", Workspace := "", Owner := "me" }]

/-- The script of a walk that fails: the pages that have a next cursor, then the answer
`bad` of the failing fetch, then whatever the remote end would answer afterwards. -/
def failScript {α : Type} (pages : List (List α × NextPage)) (bad : Page α)
    (rest : List (Page α)) : List (Page α) :=
  pages.map (fun p => { result := p.1, nextPage := some p.2, err := ErrorValue.nil }) ++
    bad :: rest

/-! ### A record of the fetches of a walk -/

/-- One fetch as observed at `Client.get`: the call and the page that answered it. -/
structure Exchange (α : Type) where
  call : Call
  page : Page α
  deriving Repr

/-- Any `Client.get`, with a record of every call and of its answer kept next to the state
of the client. -/
def traced {σ α : Type} (get : Get σ α) : Get (σ × List (Exchange α)) α :=
  fun c path options =>
    match get c.1 path options with
    | (r, s1) =>
      (r, (s1, c.2 ++ [{ call := { path := path, options := options }, page := r }]))

/-- The paging options of a fetch at offset `off`, in front of the caller's options and
behind the options `front` that the listing method adds. -/
def pagedCall (path : String) (front options : List Options) (off : String) : Call :=
  { path := path
    options := front ++
      ({ Limit := 50, Offset := off, Workspace := "", Owner := "" } : Options) :: options }

/-- The paging discipline on a record of fetches that starts at offset `off`: each call is
the paged call of its offset, and a fetch is followed by another only when it came back
without error and with a next cursor, whose offset is that of the following call. -/
def chained {α : Type} (path : String) (front options : List Options) :
    String → List (Exchange α) → Prop
  | _, [] => True
  | off, x :: rest =>
    x.call = pagedCall path front options off ∧
    (rest = [] ∨
      ∃ np, x.page.nextPage = some np ∧ x.page.err = ErrorValue.nil ∧
        chained path front options np.Offset rest)

/-! ## Scenarios -/

/-- The response of the rate-limit scenario: status 429 with `Retry-After: 30`. -/
def resp429 : HttpResponse :=
  { StatusCode := 429, Status := "429 Too Many Requests", Header := [("Retry-After", ["30"])] }

/-- The request identifier used in the scenarios. -/
def sampleID : XID := { text := "9m4e2mr0ui3e8a215n4g" }

/-- A payload entry as JSON decoding leaves it: the fields tagged `json:"-"` are zero. -/
def sampleEntry : Error :=
  { StatusCode := 0, Typ := "", Message := "Not Authorized", Phrase := "6 sad squid snuggle softly",
    Help := "https://developers.asana.com/docs/errors", RetryAfter := 0, RequestID := "" }

/-- A 401 response without a `Retry-After` header. -/
def resp401 : HttpResponse :=
  { StatusCode := 401, Status := "401 Unauthorized", Header := [] }

/-- A 429 response whose `Retry-After` value is one more than the largest `int64`. -/
def respOverflow : HttpResponse :=
  { StatusCode := 429, Status := "429 Too Many Requests",
    Header := [("Retry-After", ["9223372036854775808"])] }

/-- A rate-limit error with no stored duration. -/
def rateLimitedBare : Error :=
  { StatusCode := 429, Typ := "429 Too Many Requests", Message := "Unknown error", Phrase := "",
    Help := "", RetryAfter := 0, RequestID := "9m4e2mr0ui3e8a215n4g" }

/-- A rate-limit error with other texts and a stored duration of 30 seconds. -/
def rateLimitedTimed : Error :=
  { StatusCode := 429, Typ := "Too Many Requests", Message := "Trop de requetes", Phrase := "",
    Help := "", RetryAfter := 30 * Second, RequestID := "" }

/-- A server failure. -/
def serverError : Error :=
  { StatusCode := 503, Typ := "503 Service Unavailable", Message := "Unknown error",
    Phrase := "", Help := "", RetryAfter := 0, RequestID := "9m4e2mr0ui3e8a215n4g" }

/-- A server failure wrapped by an error of another type. -/
def wrappedServerError : ErrorValue :=
  ErrorValue.wrap "listing users" (ErrorValue.api serverError)

/-- A failed fetch of users: a server failure, with a decoded item and a cursor all the
same, as `Users` returns all three of its results whatever the error is. -/
def sampleBadUsers : Page User :=
  { result := [{ ID := "9", Name := "Zed", Email := "zed@example.com" }]
    nextPage := some { Offset := "tok9", Path := "", URI := "" }
    err := ErrorValue.api serverError }

/-- A failed fetch of custom fields: a transport error. -/
def sampleBadFields : Page CustomField :=
  { result := [], nextPage := none, err := ErrorValue.plain "connection refused" }

/-- The option that `Users` puts in front of the options it is given. -/
def workspaceOption (w : Workspace) : Options :=
  { Limit := 0, Offset := "", Workspace := w.ID, Owner := "" }

/-- The record of the walk over the three pages of users of the scenario. -/
def sampleUserLog : List (Exchange User) :=
  [{ call := pagedCall "/users" [workspaceOption sampleWorkspace] sampleOptions ""
     page := { result := [{ ID := "1", Name := "Ann", Email := "ann@example.com" },
                          { ID := "2", Name := "Bo", Email := "bo@example.com" }]
               nextPage := some { Offset := "tok1", Path := "/users?offset=tok1", URI := "" }
               err := ErrorValue.nil } },
   { call := pagedCall "/users" [workspaceOption sampleWorkspace] sampleOptions "tok1"
     page := { result := [{ ID := "3", Name := "Cy", Email := "cy@example.com" }]
               nextPage := some { Offset := "tok2", Path := "/users?offset=tok2", URI := "" }
               err := ErrorValue.nil } },
   { call := pagedCall "/users" [workspaceOption sampleWorkspace] sampleOptions "tok2"
     page := { result := sampleLastUsers, nextPage := none, err := ErrorValue.nil } }]

/-- The record of the walk over the single page of custom fields of the scenario. -/
def sampleFieldLog : List (Exchange CustomField) :=
  [{ call := pagedCall "/workspaces/1331/custom_fields" [] sampleOptions ""
     page := { result := sampleLastFields, nextPage := none, err := ErrorValue.nil } }]

/-- A response source that answers every second call with a transport error: the state
it keeps is the number of calls answered so far. -/
def flakyDoFunc : Nat → Request → DoResult × Nat := fun n _ =>
  if n % 2 = 0 then ({ resp := some resp429, err := ErrorValue.nil }, n + 1)
  else ({ resp := none, err := ErrorValue.plain "connection refused" }, n + 1)

/-- A mock client with an empty request log. -/
def sampleMock : MockClient Nat :=
  { DoFunc := some flakyDoFunc, captured := 0, Requests := [] }

/-- A mock client with an empty request log and no response source at all. -/
def bareMock : MockClient Nat :=
  { DoFunc := none, captured := 0, Requests := [] }

/-- The bytes of the JSON text `{"a":1}`. -/
def sampleBody : List UInt8 := [123, 34, 97, 34, 58, 49, 125]

/-- Three requests, the second with a body. -/
def sampleRequests : List Request :=
  [{ Method := "GET", Path := "/users/me", RawQuery := "", Header := [], Body := none },
   { Method := "POST", Path := "/memberships", RawQuery := "",
     Header := [("Content-Type", ["application/json"])],
     Body := some { pending := sampleBody, failure := ErrorValue.nil } },
   { Method := "GET", Path := "/users", RawQuery := "limit=50", Header := [], Body := none }]

/-- The second of the three requests. -/
def samplePost : Request :=
  { Method := "POST", Path := "/memberships", RawQuery := "",
    Header := [("Content-Type", ["application/json"])],
    Body := some { pending := sampleBody, failure := ErrorValue.nil } }

/-- The last of the three requests. -/
def sampleLastRequest : Request :=
  { Method := "GET", Path := "/users", RawQuery := "limit=50", Header := [], Body := none }

/-- A decoder for the scenarios, in place of `json.Unmarshal`: a text that opens with a
brace is taken as an object and kept as its bytes, any other text is a decode failure. -/
def braceDecoder (body : List UInt8) : Option (List UInt8) × ErrorValue :=
  if body.head? = some 123 then (some body, ErrorValue.nil)
  else (none, ErrorValue.plain "invalid character looking for beginning of value")

/-! ## Theorems: the error classifier -/

/-- Truncating division by 100 gives 5 exactly on the range 500 to 599. -/
theorem tdiv_hundred_eq_five (x : Int) : Int.tdiv x 100 = 5 ↔ 500 ≤ x ∧ x ≤ 599 := by
  rcases Int.le_total 0 x with h | h
  · rw [Int.tdiv_eq_ediv h (by decide)]
    omega
  · have h1 : Int.tdiv x 100 ≤ 0 := by
      have h2 : 0 ≤ Int.tdiv (-x) 100 := Int.tdiv_nonneg (by omega) (by decide)
      rw [Int.neg_tdiv] at h2
      omega
    omega

/-- A header value that parses is never stored: the error keeps the duration it had. -/
theorem applyRetryHeader_of_parsed (e : Error) (resp : HttpResponse) (n : Int)
    (h : ParseInt (resp.Header.Get "Retry-After") = (n, none)) :
    (applyRetryHeader e resp).RetryAfter = e.RetryAfter := by
  unfold applyRetryHeader
  dsimp only
  rw [h]
  split <;> rfl

/-- The header leaves every field but `RetryAfter` as it was. -/
theorem applyRetryHeader_fields (e : Error) (resp : HttpResponse) :
    (applyRetryHeader e resp).StatusCode = e.StatusCode ∧
    (applyRetryHeader e resp).Typ = e.Typ ∧
    (applyRetryHeader e resp).Message = e.Message ∧
    (applyRetryHeader e resp).Phrase = e.Phrase ∧
    (applyRetryHeader e resp).Help = e.Help ∧
    (applyRetryHeader e resp).RequestID = e.RequestID := by
  unfold applyRetryHeader
  dsimp only
  split
  · split <;> simp
  · simp

/-- With no header value the duration of the error is left as it was, and with a value
that is not a decimal integer at all it is set to zero. -/
theorem applyRetryHeader_of_syntax (e : Error) (resp : HttpResponse) :
    (resp.Header.Get "Retry-After" = "" →
      (applyRetryHeader e resp).RetryAfter = e.RetryAfter) ∧
    (resp.Header.Get "Retry-After" ≠ "" →
      ParseInt (resp.Header.Get "Retry-After") = (0, some NumError.ErrSyntax) →
      (applyRetryHeader e resp).RetryAfter = 0) := by
  unfold applyRetryHeader
  dsimp only
  constructor
  · intro h
    simp [h]
  · intro h0 h
    rw [h, if_pos h0]
    simp [wrapInt64]

/-- C1: on a 429 response with `Retry-After: 30` the header value parses as 30, and the
classifier returns a rate-limited error whose stored duration is zero, so the `RetryAfter`
accessor reads zero and not 30 seconds: the parsed value is dropped. -/
theorem retry_after_thirty_reads_zero :
    ParseInt (resp429.Header.Get "Retry-After") = (30, none) ∧
    Response.Error { Errors := none } resp429 sampleID = Except.ok rateLimitedBare ∧
    rateLimitedBare.RetryAfter = 0 ∧
    IsRateLimited (ErrorValue.api rateLimitedBare) = true ∧
    RetryAfter (ErrorValue.api rateLimitedBare) = 0 ∧
    RetryAfter (ErrorValue.api rateLimitedBare) ≠ 30 * Second := by
  refine ⟨by decide, by rfl, by rfl, by rfl, by rfl, by decide⟩

/-- C2: when the payload carries an error entry the request ID is not stamped: the
returned error keeps the entry's own (empty) `RequestID`. -/
theorem request_id_missing_with_entries :
    Response.Error { Errors := some [some sampleEntry] } resp401 sampleID =
      Except.ok { StatusCode := 401, Typ := "401 Unauthorized", Message := "Not Authorized",
                  Phrase := "6 sad squid snuggle softly",
                  Help := "https://developers.asana.com/docs/errors", RetryAfter := 0,
                  RequestID := "" } ∧
    sampleID.String ≠ "" := by
  refine ⟨by rfl, by decide⟩

/-- C3: when the first entry of the payload is a structured error, the returned error has
the message, phrase and help of that entry, the status code of the response and the status
line of the response as its type. -/
theorem error_of_first_entry (r : Response) (resp : HttpResponse) (requestID : XID)
    (e : Error) (rest : List (Option Error)) (h : r.Errors = some (some e :: rest)) :
    ∃ err, Response.Error r resp requestID = Except.ok err ∧
      err.Message = e.Message ∧ err.Phrase = e.Phrase ∧ err.Help = e.Help ∧
      err.StatusCode = resp.StatusCode ∧ err.Typ = resp.Status := by
  refine ⟨applyRetryHeader (e.withType resp.StatusCode resp.Status) resp, ?_, ?_⟩
  · simp [Response.Error, Response.baseError, h]
  · obtain ⟨h1, h2, h3, h4, h5, _⟩ :=
      applyRetryHeader_fields (e.withType resp.StatusCode resp.Status) resp
    rw [h1, h2, h3, h4, h5]
    simp [Error.withType]

/-- The statement of C3 at the 401 scenario. -/
theorem error_of_first_entry_witness :
    (({ Errors := some [some sampleEntry] } : Response).Errors = some (some sampleEntry :: [])) ∧
    ∃ err, Response.Error { Errors := some [some sampleEntry] } resp401 sampleID = Except.ok err ∧
      err.Message = sampleEntry.Message ∧ err.Phrase = sampleEntry.Phrase ∧
      err.Help = sampleEntry.Help ∧
      err.StatusCode = resp401.StatusCode ∧ err.Typ = resp401.Status :=
  ⟨rfl, error_of_first_entry { Errors := some [some sampleEntry] } resp401 sampleID
    sampleEntry [] rfl⟩

/-- C4: when the payload has no errors list the classifier returns an error whose message
is "Unknown error", with the status code of the response and its status line as type. -/
theorem error_of_absent_payload (resp : HttpResponse) (requestID : XID) :
    ∃ err, Response.Error { Errors := none } resp requestID = Except.ok err ∧
      err.Message = "Unknown error" ∧ err.StatusCode = resp.StatusCode ∧
      err.Typ = resp.Status := by
  have key := applyRetryHeader_fields
    (Error.mk resp.StatusCode resp.Status "Unknown error" "" "" 0 requestID.String) resp
  obtain ⟨h1, h2, h3, _⟩ := key
  refine ⟨applyRetryHeader
    (Error.mk resp.StatusCode resp.Status "Unknown error" "" "" 0 requestID.String) resp, ?_, ?_⟩
  · simp [Response.Error, Response.baseError]
  · rw [h1, h2, h3]
    exact ⟨rfl, rfl, rfl⟩

/-- C5: on a payload whose errors list is present but empty the classifier returns no
error value at all: it stops with an index-out-of-range panic on the first entry. -/
theorem empty_errors_list_faults (resp : HttpResponse) (requestID : XID) :
    Response.Error { Errors := some [] } resp requestID =
      Except.error Fault.indexOutOfRange := by
  simp [Response.Error, Response.baseError]

/-- C6: a `Retry-After` value of digits just above the `int64` range does not leave the
duration at zero: the saturated parse result times one second wraps to minus one second. -/
theorem retry_after_overflow_stored :
    ParseInt (respOverflow.Header.Get "Retry-After") =
      (9223372036854775807, some NumError.ErrRange) ∧
    Response.Error { Errors := none } respOverflow sampleID =
      Except.ok { StatusCode := 429, Typ := "429 Too Many Requests", Message := "Unknown error",
                  Phrase := "", Help := "", RetryAfter := -1000000000,
                  RequestID := "9m4e2mr0ui3e8a215n4g" } := by
  refine ⟨by decide, by rfl⟩

/-- C7: for a typed API error exactly one of `IsRecoverableError` and `IsFatalError` is
true, and `IsRecoverableError` is true exactly when the status code lies between 500 and
599; for an error that is not a typed API error both are false. -/
theorem recoverable_fatal_partition (err : ErrorValue) :
    (∀ e, IsAsanaError err = some e →
      (IsRecoverableError err = true ∨ IsFatalError err = true) ∧
      ¬ (IsRecoverableError err = true ∧ IsFatalError err = true) ∧
      (IsRecoverableError err = true ↔ 500 ≤ e.StatusCode ∧ e.StatusCode ≤ 599)) ∧
    (IsAsanaError err = none → IsRecoverableError err = false ∧ IsFatalError err = false) := by
  constructor
  · intro e he
    simp only [IsRecoverableError, IsFatalError, he, decide_eq_true_eq]
    refine ⟨?_, ?_, ?_⟩
    · exact em _
    · intro h
      exact h.2 h.1
    · exact tdiv_hundred_eq_five e.StatusCode
  · intro he
    simp [IsRecoverableError, IsFatalError, he]

/-- The statement of C7 at a wrapped 503 error and at an error of another type. -/
theorem recoverable_fatal_partition_witness :
    (IsAsanaError wrappedServerError = some serverError ∧
      IsRecoverableError wrappedServerError = true ∧ IsFatalError wrappedServerError = false) ∧
    (IsAsanaError (ErrorValue.plain "connection refused") = none ∧
      IsRecoverableError (ErrorValue.plain "connection refused") = false ∧
      IsFatalError (ErrorValue.plain "connection refused") = false) := by
  have h1 := (recoverable_fatal_partition wrappedServerError).1 _ rfl
  have h2 := (recoverable_fatal_partition (ErrorValue.plain "connection refused")).2 rfl
  refine ⟨⟨rfl, ?_, ?_⟩, rfl, h2.1, h2.2⟩
  · exact h1.2.2.2 ⟨by decide, by decide⟩
  · cases hf : IsFatalError wrappedServerError
    · rfl
    · exact absurd ⟨h1.2.2.2 ⟨by decide, by decide⟩, hf⟩ h1.2.1

/-- C8: `IsRateLimited`, `IsNotFoundError`, `IsAuthError` and `IsPayloadTooLarge` are true
exactly on typed API errors of status 429, 404, 401 and 413, and two typed errors with the
same status code get the same four answers whatever their other fields are. -/
theorem status_predicates (err : ErrorValue) :
    (IsRateLimited err = true ↔ ∃ e, IsAsanaError err = some e ∧ e.StatusCode = 429) ∧
    (IsNotFoundError err = true ↔ ∃ e, IsAsanaError err = some e ∧ e.StatusCode = 404) ∧
    (IsAuthError err = true ↔ ∃ e, IsAsanaError err = some e ∧ e.StatusCode = 401) ∧
    (IsPayloadTooLarge err = true ↔ ∃ e, IsAsanaError err = some e ∧ e.StatusCode = 413) ∧
    (∀ (other : ErrorValue) (e e2 : Error), IsAsanaError err = some e →
      IsAsanaError other = some e2 → e.StatusCode = e2.StatusCode →
      IsRateLimited err = IsRateLimited other ∧ IsNotFoundError err = IsNotFoundError other ∧
      IsAuthError err = IsAuthError other ∧ IsPayloadTooLarge err = IsPayloadTooLarge other) := by
  refine ⟨?_, ?_, ?_, ?_, ?_⟩
  · cases h : IsAsanaError err <;> simp [IsRateLimited, h]
  · cases h : IsAsanaError err <;> simp [IsNotFoundError, h]
  · cases h : IsAsanaError err <;> simp [IsAuthError, h]
  · cases h : IsAsanaError err <;> simp [IsPayloadTooLarge, h]
  · intro other e e2 h1 h2 hs
    simp [IsRateLimited, IsNotFoundError, IsAuthError, IsPayloadTooLarge, h1, h2, hs]

/-- The statement of C8 at two 429 errors that differ in message, type, request ID and
stored duration, the first with no duration at all. -/
theorem status_predicates_witness :
    IsAsanaError (ErrorValue.api rateLimitedBare) = some rateLimitedBare ∧
    IsAsanaError (ErrorValue.api rateLimitedTimed) = some rateLimitedTimed ∧
    rateLimitedBare.StatusCode = rateLimitedTimed.StatusCode ∧
    rateLimitedBare ≠ rateLimitedTimed ∧
    IsRateLimited (ErrorValue.api rateLimitedBare) = true ∧
    IsRateLimited (ErrorValue.api rateLimitedBare) =
      IsRateLimited (ErrorValue.api rateLimitedTimed) ∧
    IsNotFoundError (ErrorValue.api rateLimitedBare) =
      IsNotFoundError (ErrorValue.api rateLimitedTimed) ∧
    IsAuthError (ErrorValue.api rateLimitedBare) =
      IsAuthError (ErrorValue.api rateLimitedTimed) ∧
    IsPayloadTooLarge (ErrorValue.api rateLimitedBare) =
      IsPayloadTooLarge (ErrorValue.api rateLimitedTimed) :=
  ⟨rfl, rfl, rfl, by decide,
    (status_predicates (ErrorValue.api rateLimitedBare)).1.2 ⟨rateLimitedBare, rfl, rfl⟩,
    (status_predicates (ErrorValue.api rateLimitedBare)).2.2.2.2
      (ErrorValue.api rateLimitedTimed) rateLimitedBare rateLimitedTimed rfl rfl rfl⟩

/-- C9: the `RetryAfter` accessor returns the stored duration of a typed API error of
status 429, and one minute (60000000000 nanoseconds) for a typed error of any other status
and for an error that is not a typed API error. -/
theorem retryAfter_accessor (err : ErrorValue) :
    (∀ e, IsAsanaError err = some e → e.StatusCode = 429 → RetryAfter err = e.RetryAfter) ∧
    (∀ e, IsAsanaError err = some e → e.StatusCode ≠ 429 → RetryAfter err = 60000000000) ∧
    (IsAsanaError err = none → RetryAfter err = 60000000000) := by
  refine ⟨?_, ?_, ?_⟩
  · intro e he hs
    simp [RetryAfter, he, hs]
  · intro e he hs
    simp [RetryAfter, he, hs, Minute, Second]
  · intro he
    simp [RetryAfter, he, Minute, Second]

/-- The statement of C9 at a 429 error with 30 seconds stored, at a wrapped 503 error and
at an error of another type. -/
theorem retryAfter_accessor_witness :
    RetryAfter (ErrorValue.api rateLimitedTimed) = 30000000000 ∧
    RetryAfter wrappedServerError = 60000000000 ∧
    RetryAfter (ErrorValue.plain "connection refused") = 60000000000 :=
  ⟨(retryAfter_accessor (ErrorValue.api rateLimitedTimed)).1 rateLimitedTimed rfl rfl,
    (retryAfter_accessor wrappedServerError).2.1 _ rfl (by decide),
    (retryAfter_accessor (ErrorValue.plain "connection refused")).2.2 rfl⟩

/-! ## Theorems: paging -/

/-- The loop of `AllUsers` is the common walk over `Users`. -/
theorem allUsersLoop_eq_walk {σ : Type} (w : Workspace) (get : Get σ User)
    (options : List Options) (fuel : Nat) (client : σ) (nextPage : Option NextPage)
    (all : List User) :
    Workspace.allUsersLoop w get options fuel client nextPage all =
      walk (fun c o => w.Users get c o) options fuel client nextPage all := by
  induction fuel generalizing client nextPage all with
  | zero => cases nextPage <;> rfl
  | succ k ih =>
    cases nextPage with
    | none => rfl
    | some np =>
      simp only [Workspace.allUsersLoop, walk]
      split
      · rfl
      · exact ih _ _ _

/-- The loop of `AllCustomFields` is the common walk over `CustomFields`. -/
theorem allCustomFieldsLoop_eq_walk {σ : Type} (w : Workspace) (get : Get σ CustomField)
    (options : List Options) (fuel : Nat) (client : σ) (nextPage : Option NextPage)
    (all : List CustomField) :
    Workspace.allCustomFieldsLoop w get options fuel client nextPage all =
      walk (fun c o => w.CustomFields get c o) options fuel client nextPage all := by
  induction fuel generalizing client nextPage all with
  | zero => cases nextPage <;> rfl
  | succ k ih =>
    cases nextPage with
    | none => rfl
    | some np =>
      simp only [Workspace.allCustomFieldsLoop, walk]
      split
      · rfl
      · exact ih _ _ _

/-- With no next page pending the walk returns what it has, whatever the bound is. -/
theorem walk_done {σ α : Type} (fetch : σ → List Options → Page α × σ)
    (options : List Options) (fuel : Nat) (client : σ) (all : List α) :
    walk fetch options fuel client none all = some ((all, ErrorValue.nil), client) := by
  cases fuel <;> rfl

/-- The scripted `get` on a script that is not used up. -/
theorem scripted_get_cons {α : Type} (x : Page α) (xs : List (Page α)) (calls : List Call)
    (path : String) (o : List Options) :
    Scripted.get { script := x :: xs, calls := calls } path o =
      (x, { script := xs, calls := calls ++ [{ path := path, options := o }] }) := rfl

/-- The walk against a scripted remote end: with a bound of at least the number of pages,
all pages are fetched in order, their items are appended to the accumulator, and the calls
recorded are those of the offsets of the walk. -/
theorem walk_scripted {α : Type} (path : String) (front options : List Options)
    (last : List α) (rest : List (Page α)) (pages : List (List α × NextPage)) :
    ∀ (start : NextPage) (all : List α) (calls : List Call) (fuel : Nat),
      pages.length + 1 ≤ fuel →
      walk (fun c o => Scripted.get c path (front ++ o)) options fuel
          { script := walkScript pages last rest, calls := calls } (some start) all =
        some ((all ++ walkItems pages last, ErrorValue.nil),
          { script := rest
            calls := calls ++ walkCalls path front options (walkOffsets start pages) }) := by
  induction pages with
  | nil =>
    intro start all calls fuel h
    obtain ⟨k, rfl⟩ : ∃ k, fuel = k + 1 := ⟨fuel - 1, by simp at h; omega⟩
    simp only [walk, walkScript, List.map_nil, List.nil_append, scripted_get_cons, ne_eq,
      not_true_eq_false, if_false, walk_done]
    simp [walkItems, walkCalls, walkOffsets]
  | cons p ps ih =>
    intro start all calls fuel h
    obtain ⟨k, rfl⟩ : ∃ k, fuel = k + 1 := ⟨fuel - 1, by simp at h; omega⟩
    have hk : ps.length + 1 ≤ k := by simp at h; omega
    have step := ih p.2 (all ++ p.1)
      (calls ++ [{ path := path
                   options := front ++
                     ({ Limit := 50, Offset := start.Offset, Workspace := "", Owner := "" }
                       : Options) :: options }]) k hk
    simp only [walkScript] at step
    simp only [walk, walkScript, List.map_cons, List.cons_append, scripted_get_cons, ne_eq,
      not_true_eq_false, if_false]
    rw [step]
    simp [walkItems, walkCalls, walkOffsets]

/-- C10: against a remote end that answers with pages P1..Pn, of which all but the last
report a next cursor, and with a bound of at least n iterations, `AllUsers` and
`AllCustomFields` return the items of P1, .., Pn in that order with a nil error, after
exactly n calls of the page fetch: what the remote end would answer next is left unread. -/
theorem all_pages_concatenated (w : Workspace) (options : List Options)
    (userPages : List (List User × NextPage)) (lastUsers : List User)
    (moreUsers : List (Page User))
    (fieldPages : List (List CustomField × NextPage)) (lastFields : List CustomField)
    (moreFields : List (Page CustomField))
    (fuelU fuelF : Nat) (hU : userPages.length + 1 ≤ fuelU)
    (hF : fieldPages.length + 1 ≤ fuelF) :
    (∃ c, w.AllUsers Scripted.get
        { script := walkScript userPages lastUsers moreUsers, calls := [] } options fuelU =
          some ((walkItems userPages lastUsers, ErrorValue.nil), c) ∧
        c.calls.length = userPages.length + 1 ∧ c.script = moreUsers) ∧
    (∃ c, w.AllCustomFields Scripted.get
        { script := walkScript fieldPages lastFields moreFields, calls := [] } options fuelF =
          some ((walkItems fieldPages lastFields, ErrorValue.nil), c) ∧
        c.calls.length = fieldPages.length + 1 ∧ c.script = moreFields) := by
  constructor
  · have key := walk_scripted "/users"
      [({ Limit := 0, Offset := "", Workspace := w.ID, Owner := "" } : Options)] options
      lastUsers moreUsers userPages { Offset := "", Path := "", URI := "" } [] [] fuelU hU
    refine ⟨{ script := moreUsers
              calls := walkCalls "/users"
                [({ Limit := 0, Offset := "", Workspace := w.ID, Owner := "" } : Options)]
                options (walkOffsets { Offset := "", Path := "", URI := "" } userPages) },
      ?_, ?_, ?_⟩
    · unfold Workspace.AllUsers
      rw [allUsersLoop_eq_walk]
      simpa using key
    · simp [walkCalls, walkOffsets]
    · rfl
  · have key := walk_scripted ("/workspaces/" ++ w.ID ++ "/custom_fields") [] options
      lastFields moreFields fieldPages { Offset := "", Path := "", URI := "" } [] [] fuelF hF
    refine ⟨{ script := moreFields
              calls := walkCalls ("/workspaces/" ++ w.ID ++ "/custom_fields") [] options
                (walkOffsets { Offset := "", Path := "", URI := "" } fieldPages) },
      ?_, ?_, ?_⟩
    · unfold Workspace.AllCustomFields
      rw [allCustomFieldsLoop_eq_walk]
      simpa using key
    · simp [walkCalls, walkOffsets]
    · rfl

/-- The statement of C10 at a walk of three pages of users and a walk of a single page of
custom fields, each with exactly as many iterations allowed as there are pages. -/
theorem all_pages_concatenated_witness :
    sampleUserPages.length + 1 ≤ 3 ∧ ([] : List (List CustomField × NextPage)).length + 1 ≤ 1 ∧
    walkItems sampleUserPages sampleLastUsers =
      [{ ID := "1", Name := "Ann", Email := "ann@example.com" },
       { ID := "2", Name := "Bo", Email := "bo@example.com" },
       { ID := "3", Name := "Cy", Email := "cy@example.com" },
       { ID := "4", Name := "Di", Email := "di@example.com" }] ∧
    (∃ c, sampleWorkspace.AllUsers Scripted.get
        { script := walkScript sampleUserPages sampleLastUsers [], calls := [] }
        sampleOptions 3 =
          some ((walkItems sampleUserPages sampleLastUsers, ErrorValue.nil), c) ∧
        c.calls.length = sampleUserPages.length + 1 ∧ c.script = []) ∧
    (∃ c, sampleWorkspace.AllCustomFields Scripted.get
        { script := walkScript [] sampleLastFields [], calls := [] } sampleOptions 1 =
          some ((walkItems [] sampleLastFields, ErrorValue.nil), c) ∧
        c.calls.length = ([] : List (List CustomField × NextPage)).length + 1 ∧
        c.script = []) :=
  ⟨by decide, by decide, by decide,
    all_pages_concatenated sampleWorkspace sampleOptions sampleUserPages sampleLastUsers []
      [] sampleLastFields [] 3 1 (by decide) (by decide)⟩

/-- The walk against a scripted remote end whose fetch number `pages.length + 1` fails:
the walk stops there with the error of that fetch and no items, and records no call after
the failing one. -/
theorem walk_scripted_fail {α : Type} (path : String) (front options : List Options)
    (bad : Page α) (hbad : bad.err ≠ ErrorValue.nil) (rest : List (Page α))
    (pages : List (List α × NextPage)) :
    ∀ (start : NextPage) (all : List α) (calls : List Call) (fuel : Nat),
      pages.length + 1 ≤ fuel →
      walk (fun c o => Scripted.get c path (front ++ o)) options fuel
          { script := failScript pages bad rest, calls := calls } (some start) all =
        some (([], bad.err),
          { script := rest
            calls := calls ++ walkCalls path front options (walkOffsets start pages) }) := by
  induction pages with
  | nil =>
    intro start all calls fuel h
    obtain ⟨k, rfl⟩ : ∃ k, fuel = k + 1 := ⟨fuel - 1, by simp at h; omega⟩
    simp only [walk, failScript, List.map_nil, List.nil_append, scripted_get_cons, ne_eq,
      hbad, not_false_eq_true, if_true]
    simp [walkCalls, walkOffsets]
  | cons p ps ih =>
    intro start all calls fuel h
    obtain ⟨k, rfl⟩ : ∃ k, fuel = k + 1 := ⟨fuel - 1, by simp at h; omega⟩
    have hk : ps.length + 1 ≤ k := by simp at h; omega
    have step := ih p.2 (all ++ p.1)
      (calls ++ [{ path := path
                   options := front ++
                     ({ Limit := 50, Offset := start.Offset, Workspace := "", Owner := "" }
                       : Options) :: options }]) k hk
    simp only [failScript] at step
    simp only [walk, failScript, List.map_cons, List.cons_append, scripted_get_cons, ne_eq,
      not_true_eq_false, if_false]
    rw [step]
    simp [walkCalls, walkOffsets]

/-- C11: against a remote end whose first k-1 fetches succeed with a next cursor and whose
k-th fetch returns an error, and with a bound of at least k iterations, `AllUsers` and
`AllCustomFields` return that error with a nil item list, after exactly k calls of the page
fetch: what the remote end would answer to a fetch k+1 is left unread. -/
theorem first_error_aborts (w : Workspace) (options : List Options)
    (userPages : List (List User × NextPage)) (badUsers : Page User)
    (moreUsers : List (Page User))
    (fieldPages : List (List CustomField × NextPage)) (badFields : Page CustomField)
    (moreFields : List (Page CustomField))
    (fuelU fuelF : Nat) (hU : userPages.length + 1 ≤ fuelU)
    (hF : fieldPages.length + 1 ≤ fuelF)
    (heU : badUsers.err ≠ ErrorValue.nil) (heF : badFields.err ≠ ErrorValue.nil) :
    (∃ c, w.AllUsers Scripted.get
        { script := failScript userPages badUsers moreUsers, calls := [] } options fuelU =
          some (([], badUsers.err), c) ∧
        c.calls.length = userPages.length + 1 ∧ c.script = moreUsers) ∧
    (∃ c, w.AllCustomFields Scripted.get
        { script := failScript fieldPages badFields moreFields, calls := [] } options fuelF =
          some (([], badFields.err), c) ∧
        c.calls.length = fieldPages.length + 1 ∧ c.script = moreFields) := by
  constructor
  · have key := walk_scripted_fail "/users"
      [({ Limit := 0, Offset := "", Workspace := w.ID, Owner := "" } : Options)] options
      badUsers heU moreUsers userPages { Offset := "", Path := "", URI := "" } [] [] fuelU hU
    refine ⟨{ script := moreUsers
              calls := walkCalls "/users"
                [({ Limit := 0, Offset := "", Workspace := w.ID, Owner := "" } : Options)]
                options (walkOffsets { Offset := "", Path := "", URI := "" } userPages) },
      ?_, ?_, ?_⟩
    · unfold Workspace.AllUsers
      rw [allUsersLoop_eq_walk]
      simpa using key
    · simp [walkCalls, walkOffsets]
    · rfl
  · have key := walk_scripted_fail ("/workspaces/" ++ w.ID ++ "/custom_fields") [] options
      badFields heF moreFields fieldPages { Offset := "", Path := "", URI := "" } [] []
      fuelF hF
    refine ⟨{ script := moreFields
              calls := walkCalls ("/workspaces/" ++ w.ID ++ "/custom_fields") [] options
                (walkOffsets { Offset := "", Path := "", URI := "" } fieldPages) },
      ?_, ?_, ?_⟩
    · unfold Workspace.AllCustomFields
      rw [allCustomFieldsLoop_eq_walk]
      simpa using key
    · simp [walkCalls, walkOffsets]
    · rfl

/-- The statement of C11 at a walk of users whose third fetch fails with a server error,
two pages of items having been read, and at a walk of custom fields whose first fetch
fails; a page scripted after the failure stays unread. -/
theorem first_error_aborts_witness :
    sampleUserPages.length + 1 ≤ 3 ∧ ([] : List (List CustomField × NextPage)).length + 1 ≤ 1 ∧
    sampleBadUsers.err ≠ ErrorValue.nil ∧ sampleBadFields.err ≠ ErrorValue.nil ∧
    (∃ c, sampleWorkspace.AllUsers Scripted.get
        { script := failScript sampleUserPages sampleBadUsers
            [{ result := sampleLastUsers, nextPage := none, err := ErrorValue.nil }],
          calls := [] }
        sampleOptions 3 = some (([], sampleBadUsers.err), c) ∧
        c.calls.length = sampleUserPages.length + 1 ∧
        c.script = [{ result := sampleLastUsers, nextPage := none, err := ErrorValue.nil }]) ∧
    (∃ c, sampleWorkspace.AllCustomFields Scripted.get
        { script := failScript [] sampleBadFields [], calls := [] } sampleOptions 1 =
          some (([], sampleBadFields.err), c) ∧
        c.calls.length = ([] : List (List CustomField × NextPage)).length + 1 ∧
        c.script = []) :=
  ⟨by decide, by decide, by decide, by decide,
    first_error_aborts sampleWorkspace sampleOptions sampleUserPages sampleBadUsers
      [{ result := sampleLastUsers, nextPage := none, err := ErrorValue.nil }]
      [] sampleBadFields [] 3 1 (by decide) (by decide) (by decide) (by decide)⟩

/-- The traced `get` answers as `get` does and adds one exchange to the record. -/
theorem traced_apply {σ α : Type} (get : Get σ α) (s : σ) (log : List (Exchange α))
    (path : String) (o : List Options) :
    traced get (s, log) path o =
      ((get s path o).1,
        ((get s path o).2,
          log ++ [{ call := { path := path, options := o }, page := (get s path o).1 }])) :=
  rfl

/-- Every walk that returns has added to the record a run of exchanges that is not empty
and is chained from the offset of the cursor it started with. -/
theorem walk_traced_chained {σ α : Type} (get : Get σ α) (path : String)
    (front options : List Options) :
    ∀ (fuel : Nat) (s : σ) (log : List (Exchange α)) (start : NextPage) (all : List α)
      (res : List α × ErrorValue) (s1 : σ) (log1 : List (Exchange α)),
      walk (fun c o => traced get c path (front ++ o)) options fuel (s, log) (some start) all =
        some (res, (s1, log1)) →
      ∃ added, log1 = log ++ added ∧ added ≠ [] ∧
        chained path front options start.Offset added := by
  intro fuel
  induction fuel with
  | zero =>
    intro s log start all res s1 log1 h
    simp [walk] at h
  | succ k ih =>
    intro s log start all res s1 log1 h
    simp only [walk, traced_apply] at h
    split at h
    · simp only [Option.some.injEq, Prod.mk.injEq] at h
      obtain ⟨_, _, hlog⟩ := h
      exact ⟨_, hlog.symm, by simp, ⟨rfl, Or.inl rfl⟩⟩
    · rename_i herr
      simp only [ne_eq, not_not] at herr
      cases hnp : (get s path (front ++
          ({ Limit := 50, Offset := start.Offset, Workspace := "", Owner := "" } : Options)
            :: options)).1.nextPage with
      | none =>
        rw [hnp, walk_done] at h
        simp only [Option.some.injEq, Prod.mk.injEq] at h
        obtain ⟨_, _, hlog⟩ := h
        exact ⟨_, hlog.symm, by simp, ⟨rfl, Or.inl rfl⟩⟩
      | some np =>
        rw [hnp] at h
        obtain ⟨added, hadd, _, hch⟩ := ih _ _ np _ res s1 log1 h
        refine ⟨{ call := pagedCall path front options start.Offset
                  page := (get s path (pagedCall path front options start.Offset).options).1 }
            :: added, ?_, by simp, ⟨rfl, Or.inr ⟨np, hnp, herr, hch⟩⟩⟩
        rw [hadd]
        simp [pagedCall]

/-- In a chained record the first call is the paged call of the starting offset. -/
theorem chained_first {α : Type} (path : String) (front options : List Options)
    (off : String) (log : List (Exchange α)) (h : chained path front options off log)
    (x : Exchange α) (hx : log[0]? = some x) :
    x.call = pagedCall path front options off := by
  cases log with
  | nil => simp at hx
  | cons y rest =>
    simp only [List.getElem?_cons_zero, Option.some.injEq] at hx
    subst hx
    exact h.1

/-- In a chained record each call after the first is the paged call of the offset of the
cursor that the fetch before it returned. -/
theorem chained_next {α : Type} (path : String) (front options : List Options)
    (log : List (Exchange α)) :
    ∀ (off : String), chained path front options off log →
      ∀ (k : Nat) (x y : Exchange α), log[k]? = some x → log[k + 1]? = some y →
        ∃ np, x.page.nextPage = some np ∧ y.call = pagedCall path front options np.Offset := by
  induction log with
  | nil =>
    intro off _ k x y hx
    simp at hx
  | cons z rest ih =>
    intro off h k x y hx hy
    rcases h.2 with hnil | ⟨np, hnp, _, hch⟩
    · subst hnil
      simp at hy
    · cases k with
      | zero =>
        simp only [List.getElem?_cons_zero, Option.some.injEq] at hx
        subst hx
        simp only [List.getElem?_cons_succ] at hy
        exact ⟨np, hnp, chained_first path front options np.Offset rest hch y hy⟩
      | succ j =>
        simp only [List.getElem?_cons_succ] at hx hy
        exact ih np.Offset hch j x y hx hy

/-- C14: in every walk of `AllUsers` and of `AllCustomFields` that returns, whatever the
remote end answers, at least one fetch is made; the first fetch carries page size 50 and an
empty offset, each later fetch carries page size 50 and the offset of the next cursor that
the fetch before it returned, and in every fetch these paging options stand in front of the
caller's own options (behind the workspace option that `Users` itself adds). -/
theorem paging_options_chained {σ τ : Type} (w : Workspace) (options : List Options)
    (getU : Get σ User) (getF : Get τ CustomField) (sU endU : σ) (sF endF : τ)
    (fuelU fuelF : Nat) (resU : List User × ErrorValue) (resF : List CustomField × ErrorValue)
    (logU : List (Exchange User)) (logF : List (Exchange CustomField))
    (hU : w.AllUsers (traced getU) (sU, []) options fuelU = some (resU, (endU, logU)))
    (hF : w.AllCustomFields (traced getF) (sF, []) options fuelF =
      some (resF, (endF, logF))) :
    (logU ≠ [] ∧
      (∀ x, logU[0]? = some x →
        x.call = { path := "/users"
                   options := { Limit := 0, Offset := "", Workspace := w.ID, Owner := "" } ::
                     { Limit := 50, Offset := "", Workspace := "", Owner := "" } :: options }) ∧
      (∀ k x y, logU[k]? = some x → logU[k + 1]? = some y →
        ∃ np, x.page.nextPage = some np ∧
          y.call = { path := "/users"
                     options := { Limit := 0, Offset := "", Workspace := w.ID, Owner := "" } ::
                       { Limit := 50, Offset := np.Offset, Workspace := "", Owner := "" } ::
                       options })) ∧
    (logF ≠ [] ∧
      (∀ x, logF[0]? = some x →
        x.call = { path := "/workspaces/" ++ w.ID ++ "/custom_fields"
                   options :=
                     { Limit := 50, Offset := "", Workspace := "", Owner := "" } :: options }) ∧
      (∀ k x y, logF[k]? = some x → logF[k + 1]? = some y →
        ∃ np, x.page.nextPage = some np ∧
          y.call = { path := "/workspaces/" ++ w.ID ++ "/custom_fields"
                     options :=
                       { Limit := 50, Offset := np.Offset, Workspace := "", Owner := "" } ::
                       options })) := by
  constructor
  · unfold Workspace.AllUsers at hU
    rw [allUsersLoop_eq_walk] at hU
    obtain ⟨added, hadd, hne, hch⟩ := walk_traced_chained getU "/users"
      [({ Limit := 0, Offset := "", Workspace := w.ID, Owner := "" } : Options)] options
      fuelU sU [] { Offset := "", Path := "", URI := "" } [] resU endU logU hU
    rw [List.nil_append] at hadd
    subst hadd
    refine ⟨hne, ?_, ?_⟩
    · intro x hx
      exact chained_first _ _ _ _ _ hch x hx
    · intro k x y hx hy
      exact chained_next _ _ _ _ _ hch k x y hx hy
  · unfold Workspace.AllCustomFields at hF
    rw [allCustomFieldsLoop_eq_walk] at hF
    obtain ⟨added, hadd, hne, hch⟩ := walk_traced_chained getF
      ("/workspaces/" ++ w.ID ++ "/custom_fields") [] options
      fuelF sF [] { Offset := "", Path := "", URI := "" } [] resF endF logF hF
    rw [List.nil_append] at hadd
    subst hadd
    refine ⟨hne, ?_, ?_⟩
    · intro x hx
      exact chained_first _ _ _ _ _ hch x hx
    · intro k x y hx hy
      exact chained_next _ _ _ _ _ hch k x y hx hy

/-- The statement of C14 at the walk over three pages of users and at the walk over a
single page of custom fields, with the records of both walks written out. -/
theorem paging_options_chained_witness :
    sampleWorkspace.AllUsers (traced Scripted.get)
        ({ script := walkScript sampleUserPages sampleLastUsers [], calls := [] }, [])
        sampleOptions 3 =
      some ((walkItems sampleUserPages sampleLastUsers, ErrorValue.nil),
        ({ script := []
           calls := walkCalls "/users" [workspaceOption sampleWorkspace] sampleOptions
             ["", "tok1", "tok2"] }, sampleUserLog)) ∧
    sampleWorkspace.AllCustomFields (traced Scripted.get)
        ({ script := walkScript [] sampleLastFields [], calls := [] }, []) sampleOptions 1 =
      some ((sampleLastFields, ErrorValue.nil),
        ({ script := []
           calls := walkCalls "/workspaces/1331/custom_fields" [] sampleOptions [""] },
          sampleFieldLog)) ∧
    (sampleUserLog ≠ [] ∧
      (∀ x, sampleUserLog[0]? = some x →
        x.call = { path := "/users"
                   options := { Limit := 0, Offset := "", Workspace := sampleWorkspace.ID,
                                Owner := "" } ::
                     { Limit := 50, Offset := "", Workspace := "", Owner := "" } ::
                     sampleOptions }) ∧
      (∀ k x y, sampleUserLog[k]? = some x → sampleUserLog[k + 1]? = some y →
        ∃ np, x.page.nextPage = some np ∧
          y.call = { path := "/users"
                     options := { Limit := 0, Offset := "", Workspace := sampleWorkspace.ID,
                                  Owner := "" } ::
                       { Limit := 50, Offset := np.Offset, Workspace := "", Owner := "" } ::
                       sampleOptions })) ∧
    (sampleFieldLog ≠ [] ∧
      (∀ x, sampleFieldLog[0]? = some x →
        x.call = { path := "/workspaces/" ++ sampleWorkspace.ID ++ "/custom_fields"
                   options :=
                     { Limit := 50, Offset := "", Workspace := "", Owner := "" } ::
                     sampleOptions }) ∧
      (∀ k x y, sampleFieldLog[k]? = some x → sampleFieldLog[k + 1]? = some y →
        ∃ np, x.page.nextPage = some np ∧
          y.call = { path := "/workspaces/" ++ sampleWorkspace.ID ++ "/custom_fields"
                     options :=
                       { Limit := 50, Offset := np.Offset, Workspace := "", Owner := "" } ::
                       sampleOptions })) :=
  ⟨by rfl, by rfl,
    paging_options_chained sampleWorkspace sampleOptions Scripted.get Scripted.get
      { script := walkScript sampleUserPages sampleLastUsers [], calls := [] }
      { script := []
        calls := walkCalls "/users" [workspaceOption sampleWorkspace] sampleOptions
          ["", "tok1", "tok2"] }
      { script := walkScript [] sampleLastFields [], calls := [] }
      { script := []
        calls := walkCalls "/workspaces/1331/custom_fields" [] sampleOptions [""] }
      3 1 (walkItems sampleUserPages sampleLastUsers, ErrorValue.nil)
      (sampleLastFields, ErrorValue.nil) sampleUserLog sampleFieldLog (by rfl) (by rfl)⟩

/-! ## Theorems: the mock transport -/

/-- One call of `Do` puts its request at the end of the log, whatever `DoFunc` is and
whatever it returns. -/
theorem do_requests {σ : Type} (m : MockClient σ) (req : Request) :
    (m.Do req).2.Requests = m.Requests ++ [req] := by
  unfold MockClient.Do
  cases m.DoFunc <;> rfl

/-- A run of calls of `Do` puts its requests at the end of the log, in call order. -/
theorem doAll_requests {σ : Type} (reqs : List Request) :
    ∀ (m : MockClient σ), (m.doAll reqs).Requests = m.Requests ++ reqs := by
  induction reqs with
  | nil =>
    intro m
    simp [MockClient.doAll]
  | cons req rest ih =>
    intro m
    simp [MockClient.doAll, ih, do_requests]

/-- The last request of the log is what `GetLastRequest` gives a view over. -/
theorem getLastRequest_eq {σ : Type} (m : MockClient σ) :
    m.GetLastRequest = m.Requests.getLast?.map (fun r => { Request := r }) := by
  unfold MockClient.GetLastRequest
  split
  · rename_i h
    rw [List.length_eq_zero.mp h]
    rfl
  · rename_i h
    rw [List.getLast?_eq_getElem?, List.getElem?_eq_getElem (by omega)]
    simp

/-- C12: a mock client that starts with an empty log and is sent N requests has them in
its log afterwards, in call order and N in number, whatever its response source is and
returns; every single call keeps the entries logged before it and adds its request at the
end, so the log after any first part of the run is that first part; `GetLastRequest` is nil
after no call and otherwise a view over the request of the last call. -/
theorem log_holds_every_request {σ : Type} (m : MockClient σ) (reqs : List Request)
    (hempty : m.Requests = []) :
    (m.doAll reqs).Requests = reqs ∧
    (m.doAll reqs).Requests.length = reqs.length ∧
    (∀ (m1 : MockClient σ) (req : Request), (m1.Do req).2.Requests = m1.Requests ++ [req]) ∧
    (∀ before after, reqs = before ++ after → (m.doAll before).Requests = before) ∧
    (reqs = [] → (m.doAll reqs).GetLastRequest = none) ∧
    (∀ req, reqs.getLast? = some req →
      (m.doAll reqs).GetLastRequest = some { Request := req }) := by
  have hlog : ∀ l : List Request, (m.doAll l).Requests = l := by
    intro l
    rw [doAll_requests, hempty, List.nil_append]
  refine ⟨hlog reqs, by rw [hlog reqs], do_requests, ?_, ?_, ?_⟩
  · intro before _ _
    exact hlog before
  · intro h
    rw [getLastRequest_eq, hlog reqs, h]
    rfl
  · intro req h
    rw [getLastRequest_eq, hlog reqs, h]
    rfl

/-- The statement of C12 at three calls of a mock whose response source fails on every
second call, and at three calls of a mock with no response source. -/
theorem log_holds_every_request_witness :
    sampleMock.Requests = [] ∧ bareMock.Requests = [] ∧
    (sampleMock.Do samplePost).1 = Except.ok { resp := some resp429, err := ErrorValue.nil } ∧
    ((sampleMock.Do samplePost).2.Do sampleLastRequest).1 =
      Except.ok { resp := none, err := ErrorValue.plain "connection refused" } ∧
    (sampleMock.doAll sampleRequests).Requests = sampleRequests ∧
    (sampleMock.doAll sampleRequests).Requests.length = 3 ∧
    (sampleMock.doAll sampleRequests).GetLastRequest = some { Request := sampleLastRequest } ∧
    (sampleMock.doAll []).GetLastRequest = none ∧
    (bareMock.Do samplePost).1 = Except.error Fault.nilDereference ∧
    (bareMock.doAll sampleRequests).Requests = sampleRequests :=
  ⟨rfl, rfl, rfl, rfl,
    (log_holds_every_request sampleMock sampleRequests rfl).1,
    (log_holds_every_request sampleMock sampleRequests rfl).2.1,
    (log_holds_every_request sampleMock sampleRequests rfl).2.2.2.2.2 sampleLastRequest rfl,
    (log_holds_every_request sampleMock [] rfl).2.2.2.2.1 rfl,
    rfl,
    (log_holds_every_request bareMock sampleRequests rfl).1⟩

/-- On a request whose body stream ends cleanly, `Body` decodes the pending bytes and
leaves a fresh stream over the same bytes in the request. -/
theorem body_of_clean_stream {J : Type} (unmarshal : List UInt8 → Option J × ErrorValue)
    (a : AssertRequest) (rd : Reader) (hbody : a.Request.Body = some rd)
    (hclean : rd.failure = ErrorValue.nil) :
    a.Body unmarshal =
      (if (unmarshal rd.pending).2 ≠ ErrorValue.nil then (none, (unmarshal rd.pending).2)
        else ((unmarshal rd.pending).1, ErrorValue.nil),
       { Request := { a.Request with Body := some (NopCloserBuffer rd.pending) } }) := by
  unfold AssertRequest.Body
  rw [hbody]
  simp only [ReadAll, hclean, ne_eq, not_true_eq_false, if_false]
  split <;> rfl

/-- C13: on a captured request whose body stream reads without error, two calls of `Body`
in a row return the same result, which is the decoding of the bytes of the body (the
decoded object, or the decode failure), and after a call of `Body` reading the body of the
request gives the same bytes as it would have given before the call. -/
theorem body_read_is_repeatable {J : Type} (unmarshal : List UInt8 → Option J × ErrorValue)
    (a : AssertRequest) (rd : Reader) (hbody : a.Request.Body = some rd)
    (hclean : rd.failure = ErrorValue.nil) :
    ((a.Body unmarshal).2.Body unmarshal).1 = (a.Body unmarshal).1 ∧
    (a.Body unmarshal).1 =
      (if (unmarshal rd.pending).2 ≠ ErrorValue.nil then (none, (unmarshal rd.pending).2)
        else ((unmarshal rd.pending).1, ErrorValue.nil)) ∧
    bodyBytes (a.Body unmarshal).2.Request = bodyBytes a.Request ∧
    bodyBytes a.Request = some (rd.pending, ErrorValue.nil) := by
  have first := body_of_clean_stream unmarshal a rd hbody hclean
  have second := body_of_clean_stream unmarshal (a.Body unmarshal).2
    (NopCloserBuffer rd.pending) (by rw [first]) rfl
  refine ⟨?_, ?_, ?_, ?_⟩
  · rw [second, first]
    rfl
  · rw [first]
  · rw [first]
    simp [bodyBytes, hbody, ReadAll, NopCloserBuffer, hclean]
  · simp [bodyBytes, hbody, ReadAll, hclean]

/-- The statement of C13 at the request with the body `{"a":1}`, which decodes, and with
the decoder of the scenarios. -/
theorem body_read_is_repeatable_witness :
    samplePost.Body = some { pending := sampleBody, failure := ErrorValue.nil } ∧
    (({ Request := samplePost } : AssertRequest).Body braceDecoder).1 =
      (some sampleBody, ErrorValue.nil) ∧
    ((({ Request := samplePost } : AssertRequest).Body braceDecoder).2.Body braceDecoder).1 =
      (({ Request := samplePost } : AssertRequest).Body braceDecoder).1 ∧
    bodyBytes (({ Request := samplePost } : AssertRequest).Body braceDecoder).2.Request =
      bodyBytes samplePost ∧
    bodyBytes samplePost = some (sampleBody, ErrorValue.nil) :=
  ⟨rfl, rfl,
    (body_read_is_repeatable braceDecoder { Request := samplePost }
      { pending := sampleBody, failure := ErrorValue.nil } rfl rfl).1,
    (body_read_is_repeatable braceDecoder { Request := samplePost }
      { pending := sampleBody, failure := ErrorValue.nil } rfl rfl).2.2.1,
    (body_read_is_repeatable braceDecoder { Request := samplePost }
      { pending := sampleBody, failure := ErrorValue.nil } rfl rfl).2.2.2⟩

end Asana
